/-
Verification of the ScholarBridge ingestion pipeline.

This file gives a shallow embedding, in Lean 4, of the scholarship
ingestion pipeline of the repository:

  * src/services/ai/utils.ts          (blocklist, isOfficialDirectLink,
                                       verifyLinkReachable, runSearchBatch)
  * src/services/ai/gemini.provider.ts (per-element candidate validation;
                                       grok.provider.ts is identical here)
  * src/services/ai/index.ts          (AIServiceManager.initializeProvider)
  * src/services/scholarshipService.ts (isValidApplicationLink,
                                       validateScholarshipData,
                                       storeScholarships, fetch logs)
  * src/db/Scholarship.ts             (unique index on the collection)
  * src/cron/scheduler.ts             (runFetchCycle)

Modelling conventions:
  * JavaScript `Date` values are modelled as natural-number timestamps in
    milliseconds on a proleptic Gregorian time line (`civilToDay` counts
    days from 0000-03-01).  `new Date("YYYY-MM-DD")` parses at UTC
    midnight, modelled by `jsParseDate`; an invalid date (`NaN`) is
    modelled by `none`, and JS comparisons against `NaN` are false, which
    the embedding reproduces field by field.  Local-midnight constructors
    are modelled at UTC midnight.
  * URL strings are modelled by the result of `new URL(s)`: `none` when
    parsing throws, otherwise a `JsUrl` carrying `protocol`, `hostname`
    and `pathname` exactly as the code consumes them.  String trimming of
    a URL string is absorbed by the parse.
  * Network effects (fetch) are modelled by a `NetOracle` giving, per URL,
    the outcome of the HEAD request and of the fall-back GET request.
  * The database is modelled as an in-memory list of records; `findOne`
    is first match in insertion order, `updateOne` updates that match.
-/
import Mathlib

namespace ScholarBridge

/-! ### Gregorian calendar arithmetic (model of JS `Date`)

Day numbering follows the standard civil-from-days / days-from-civil
algorithms, counting days from 0000-03-01 so that all values are `Nat`. -/

/-- Gregorian leap-year test. -/
def isLeap (y : Nat) : Bool :=
  (y % 4 == 0 && y % 100 != 0) || y % 400 == 0

/-- Number of days in month `m` (1..12) of year `y`. -/
def daysInMonth (y m : Nat) : Nat :=
  if m == 2 then (if isLeap y then 29 else 28)
  else if m == 4 || m == 6 || m == 9 || m == 11 then 30
  else 31

/-- Day number of the Gregorian date `y-m-d`, counted from 0000-03-01. -/
def civilToDay (y m d : Nat) : Nat :=
  let y' := if m ≤ 2 then y - 1 else y
  let era := y' / 400
  let yoe := y' % 400
  let mp := (m + 9) % 12
  let doy := (153 * mp + 2) / 5 + d - 1
  let doe := yoe * 365 + yoe / 4 - yoe / 100 + doy
  era * 146097 + doe

/-- Inverse of `civilToDay`: the Gregorian date `(y, m, d)` of a day number. -/
def civilFromDay (z : Nat) : Nat × Nat × Nat :=
  let era := z / 146097
  let doe := z % 146097
  let yoe := (doe - doe / 1460 + doe / 36524 - doe / 146096) / 365
  let y' := yoe + era * 400
  let doy := doe - (365 * yoe + yoe / 4 - yoe / 100)
  let mp := (5 * doy + 2) / 153
  let d := doy - (153 * mp + 2) / 5 + 1
  let m := if mp < 10 then mp + 3 else mp - 9
  (if m ≤ 2 then y' + 1 else y', m, d)

def msPerDay : Nat := 86400000

/-- Millisecond timestamp of UTC midnight of `y-m-d`. -/
def dateMs (y m d : Nat) : Nat := civilToDay y m d * msPerDay

/-- The year component of a timestamp: model of `Date.prototype.getFullYear`. -/
def yearOf (t : Nat) : Nat := (civilFromDay (t / msPerDay)).1

/-- Model of `d.setFullYear(d.getFullYear() + n)`: shift a timestamp by `n`
calendar years, keeping month, day and time of day (Feb 29 rolls over to
Mar 1 in a non-leap target year, as in JS). -/
def addYears (n t : Nat) : Nat :=
  let c := civilFromDay (t / msPerDay)
  civilToDay (c.1 + n) c.2.1 c.2.2 * msPerDay + t % msPerDay

/-- Numeric value of a decimal digit character. -/
def digitVal (c : Char) : Option Nat :=
  if c.isDigit then some (c.toNat - 48) else none

/-- Split a 10-character `YYYY-MM-DD` string into its numeric components. -/
def parseYMD (s : String) : Option (Nat × Nat × Nat) :=
  match s.toList with
  | [a, b, c, d, h1, e, f, h2, g, i] =>
    if h1 == '-' && h2 == '-' then
      match digitVal a, digitVal b, digitVal c, digitVal d,
            digitVal e, digitVal f, digitVal g, digitVal i with
      | some a', some b', some c', some d', some e', some f', some g', some i' =>
        some (a' * 1000 + b' * 100 + c' * 10 + d', (e' * 10 + f', g' * 10 + i'))
      | _, _, _, _, _, _, _, _ => none
    else none
  | _ => none

/-- Model of `new Date(s).getTime()` for the `YYYY-MM-DD` strings the
pipeline feeds it (the Zod schema enforces that shape upstream): UTC
midnight of the date, or `none` (`NaN`) when the components do not form a
real calendar date. -/
def jsParseDate (s : String) : Option Nat :=
  match parseYMD s with
  | none => none
  | some (y, m, d) =>
    if 1 ≤ m && m ≤ 12 && 1 ≤ d && d ≤ daysInMonth y m then
      some (dateMs y m d)
    else none

/-! ### String primitives

The JS string methods the pipeline uses, modelled on the character list of
the string (the pipeline's data is ASCII, so ASCII case folding models
`toLowerCase`). -/

/-- Model of `String.prototype.toLowerCase`. -/
def lowerStr (s : String) : String := String.mk (s.data.map Char.toLower)

/-- Model of `String.prototype.endsWith`. -/
def sEndsWith (s tail : String) : Bool := tail.data.isSuffixOf s.data

/-- Model of `String.prototype.startsWith`. -/
def sStartsWith (s head : String) : Bool := head.data.isPrefixOf s.data

/-- Model of `String.prototype.trim`: strip leading and trailing
whitespace. -/
def jsTrim (s : String) : String :=
  String.mk (((s.data.dropWhile Char.isWhitespace).reverse.dropWhile
    Char.isWhitespace).reverse)

/-! ### URLs and the trust policy -/

/-- The result of a successful `new URL(s)`: the three components the
pipeline reads.  `protocol` keeps the trailing colon, as in JS. -/
structure JsUrl where
  protocol : String
  hostname : String
  pathname : String
deriving DecidableEq, Repr

/-- The blocklist shared (verbatim, 52 entries) by
`src/services/ai/utils.ts` and `src/services/scholarshipService.ts`. -/
def blockedDomains : List String := [
  "scholarshiptab.com", "studentscholarships.org", "scholarshipnext.com",
  "scholaropportunity.com", "scholarships.com", "fastweb.com",
  "scholarshipowl.com", "scholarshipportal.com", "findaid.org",
  "internationalscholarships.com", "scholars4dev.com", "afterschool.my",
  "opportunitiesforafricans.com", "oyaop.com", "aseanop.com", "marj3.com",
  "opportunitydesk.org", "scholarshipsads.com", "scholarshipscorner.website",
  "grantfinder.com", "scholarshipslab.com", "uscholarships.us",
  "scholarshipau.com", "happyfacetravels.com", "worldscholarshipforum.com",
  "scholarshipscafe.com", "scholarsme.com", "myschoolscholarship.com",
  "facebook.com", "twitter.com", "x.com", "linkedin.com", "instagram.com",
  "youtube.com", "tiktok.com", "reddit.com", "quora.com", "pinterest.com",
  "medium.com", "wordpress.com", "blogspot.com", "tumblr.com", "substack.com",
  "wikipedia.org", "wikidata.org", "bbc.com", "cnn.com", "theguardian.com",
  "example.com", "example.org", "test.com", "localhost"]

/-- Model of `hostname.toLowerCase().replace(/^www\./, "")`: lowercase,
then strip one leading `www.`. -/
def normalizeHost (h : String) : String :=
  let lower := lowerStr h
  if sStartsWith lower "www." then lower.drop 4 else lower

/-- The blocklist test both link validators run on the normalized host:
equal to a blocked domain, or a subdomain of one. -/
def hostIsBlocked (host : String) : Bool :=
  blockedDomains.any (fun blocked => host == blocked || sEndsWith host ("." ++ blocked))

/-- `isOfficialDirectLink` from src/services/ai/utils.ts.  The argument is
the parse result of the link string (`none`: empty string or `new URL`
threw). -/
def isOfficialDirectLink (link : Option JsUrl) : Bool :=
  match link with
  | none => false
  | some url =>
    if url.protocol != "https:" && url.protocol != "http:" then false
    else
      let host := normalizeHost url.hostname
      if hostIsBlocked host then false
      else if sEndsWith (lowerStr url.pathname) ".pdf" then false
      else true

/-- `isValidApplicationLink` from src/services/scholarshipService.ts.
Same policy as `isOfficialDirectLink`; the source checks the PDF suffix
before the blocklist, which this definition mirrors. -/
def isValidApplicationLink (link : Option JsUrl) : Bool :=
  match link with
  | none => false
  | some url =>
    if url.protocol != "http:" && url.protocol != "https:" then false
    else if sEndsWith (lowerStr url.pathname) ".pdf" then false
    else
      let host := normalizeHost url.hostname
      if hostIsBlocked host then false
      else true

/-! ### Candidate schema (`ParsedScholarshipSchema`, src/types) -/

/-- The output type of a successful Zod parse (`ParsedScholarship`).
`link` carries the parse result of the link string (which the schema
guarantees to be a well-formed http(s) URL); `deadline` is the raw
`YYYY-MM-DD` string, as in the source. -/
structure ParsedScholarship where
  title : String
  organization : String
  country : String
  level : String
  field : String
  category : String
  deadline : String
  description : String
  link : Option JsUrl
  amount : String
  currency : String
deriving DecidableEq, Repr

/-- One element of the JSON array a provider returned, before schema
validation.  `none` in a field models a missing (or non-string) value;
`link = some none` models a present link string that is not a valid URL. -/
structure RawItem where
  title : Option String
  organization : Option String
  country : Option String
  level : Option String
  field : Option String
  category : Option String
  deadline : Option String
  description : Option String
  link : Option (Option JsUrl)
  amount : Option String
  currency : Option String
deriving DecidableEq, Repr

def levelValues : List String := ["Bachelor", "Master", "PhD", "Postdoctoral", "Any"]

def categoryValues : List String :=
  ["Merit-Based", "Need-Based", "Research", "Sports", "Women in STEM",
   "International", "Government", "Private"]

def currencyValues : List String :=
  ["USD", "EUR", "GBP", "AUD", "CAD", "JPY", "CNY", "KRW", "TRY", "SEK",
   "NOK", "DKK", "CHF", "NZD", "SGD", "HKD", "INR", "Other"]

/-- The Zod regex `^\d{4}-\d{2}-\d{2}$` on the deadline string. -/
def deadlineShapeOk (s : String) : Bool :=
  match s.toList with
  | [a, b, c, d, h1, e, f, h2, g, i] =>
    a.isDigit && b.isDigit && c.isDigit && d.isDigit && h1 == '-' &&
    e.isDigit && f.isDigit && h2 == '-' && g.isDigit && i.isDigit
  | _ => false

/-- `ParsedScholarshipSchema.safeParse`: required fields, minimum lengths,
enum membership, deadline shape, URL well-formedness with an http(s)
scheme, and the `amount`/`currency` defaults. -/
def zodParse (item : RawItem) : Option ParsedScholarship :=
  match item.title, item.organization, item.country, item.level, item.field,
        item.category, item.deadline, item.description, item.link with
  | some t, some o, some co, some lv, some fi, some ca, some dl, some de, some li =>
    if t.length < 10 then none
    else if o.length < 3 then none
    else if co.length < 2 then none
    else if !(levelValues.contains lv) then none
    else if fi.length < 2 then none
    else if !(categoryValues.contains ca) then none
    else if !(deadlineShapeOk dl) then none
    else if de.length < 50 then none
    else
      match li with
      | none => none
      | some u =>
        if !(u.protocol == "http:" || u.protocol == "https:") then none
        else
          let am : Option String :=
            match item.amount with
            | none => some "Varies"
            | some a => if a.length < 1 then none else some a
          let cu : Option String :=
            match item.currency with
            | none => some "USD"
            | some c => if currencyValues.contains c then some c else none
          match am, cu with
          | some a, some c => some ⟨t, o, co, lv, fi, ca, dl, de, some u, a, c⟩
          | _, _ => none
  | _, _, _, _, _, _, _, _, _ => none

/-! ### Per-element provider validation
(`GeminiProvider.searchScholarships`, identical in `GrokProvider`) -/

/-- The validation applied to one parsed JSON element inside
`searchScholarships`: Zod schema, then the official-link check, then the
deadline window (parseable, not before `now`, not after `now` plus three
calendar years). -/
def geminiValidateItem (now : Nat) (item : RawItem) : Option ParsedScholarship :=
  match zodParse item with
  | none => none
  | some s =>
    if !(isOfficialDirectLink s.link) then none
    else
      match jsParseDate s.deadline with
      | none => none
      | some t =>
        if t < now then none
        else if addYears 3 now < t then none
        else some s

/-- The provider's validation loop over the parsed JSON array (`for` with
`continue`/`push`). -/
def geminiProcess (now : Nat) : List RawItem → List ParsedScholarship
  | [] => []
  | item :: rest =>
    match geminiValidateItem now item with
    | some s => s :: geminiProcess now rest
    | none => geminiProcess now rest

/-! ### Link verification (`verifyLinkReachable`, `runSearchBatch`) -/

/-- Outcome of one `fetch` call: a network error / timeout (the promise
rejected, e.g. on abort after 8s), or a response with a status code. -/
inductive FetchOutcome where
  | netErr : FetchOutcome
  | status : Nat → FetchOutcome
deriving DecidableEq, Repr

/-- `verifyLinkReachable` as a function of the outcomes of its (at most)
two requests: accept 2xx/3xx on HEAD; on HEAD 403/405 retry once with GET
and accept exactly `res2.ok` (2xx); every other path, including a network
error on either request, yields `false` (the `catch` branch). -/
def verifyLinkReachable (headRes getRes : FetchOutcome) : Bool :=
  match headRes with
  | .netErr => false
  | .status c =>
    if (200 ≤ c ∧ c < 300) ∨ (300 ≤ c ∧ c < 400) then true
    else if c = 403 ∨ c = 405 then
      match getRes with
      | .netErr => false
      | .status c2 => decide (200 ≤ c2 ∧ c2 < 300)
    else false

/-- The network, as the pipeline observes it: the outcome of the HEAD and
of the fall-back GET request for each URL. -/
structure NetOracle where
  headResult : JsUrl → FetchOutcome
  getResult : JsUrl → FetchOutcome

/-- Reachability of a link string (`none`: `fetch` on an unparseable URL
rejects, landing in the `catch`). -/
def linkReachable (net : NetOracle) : Option JsUrl → Bool
  | none => false
  | some u => verifyLinkReachable (net.headResult u) (net.getResult u)

/-- The verification loop of `runSearchBatch`: keep exactly the candidates
whose link is reachable, in order.  (The source checks in windows of 5
concurrent requests but pushes results in batch order, so membership and
order match this sequential loop.) -/
def verifyAll (net : NetOracle) : List ParsedScholarship → List ParsedScholarship
  | [] => []
  | s :: rest =>
    if linkReachable net s.link then s :: verifyAll net rest
    else verifyAll net rest

/-- `runSearchBatch`: queries run strictly sequentially (with a 2s gap,
invisible to the functional model); `perQuery` is the already-validated
result of `searchScholarships` for each query; all results are
accumulated and then link-verified in one pass. -/
def runSearchBatch (net : NetOracle) (perQuery : List (List ParsedScholarship)) :
    List ParsedScholarship :=
  verifyAll net perQuery.flatten

/-! ### Persisted records and the store (`Scholarship`, `storeScholarships`) -/

/-- A persisted scholarship document (src/db/Scholarship.ts).  `deadline`
is the stored `Date` (`none` models an invalid date value). -/
structure StoredScholarship where
  title : String
  organization : String
  country : String
  level : String
  field : String
  category : String
  deadline : Option Nat
  description : String
  link : Option JsUrl
  amount : String
  currency : String
  is_verified : Bool
  source : String
  created_at : Nat
  updated_at : Nat
deriving DecidableEq, Repr

/-- The unique index declared on the collection
(`ScholarshipSchema.index({ title: 1, organization: 1, deadline: 1 },
{ unique: true })`): its key is the raw (title, organization, deadline)
triple. -/
def uniqueIndexKey (r : StoredScholarship) : String × String × Option Nat :=
  (r.title, r.organization, r.deadline)

/-- The deduplication identity key the spec describes: lowercased
(title, organization).  Stored titles and organizations are inserted
trimmed, so the stored values carry no outer whitespace. -/
def identityKey (r : StoredScholarship) : String × String :=
  (lowerStr r.title, lowerStr r.organization)

/-- A corpus satisfies the unique index: pairwise distinct
(title, organization, deadline) triples. -/
def indexAdmits (rs : List StoredScholarship) : Prop :=
  rs.Pairwise (fun a b => uniqueIndexKey a ≠ uniqueIndexKey b)

/-- Pairwise-distinct identity keys: the uniqueness invariant the spec
claims for the corpus. -/
def identityUnique (rs : List StoredScholarship) : Prop :=
  rs.Pairwise (fun a b => identityKey a ≠ identityKey b)

/-- `validateScholarshipData` from src/services/scholarshipService.ts.
Note the JS `NaN` behaviour reproduced in the deadline branch: an
unparseable deadline compares false on both `<` and `>` and therefore
passes, and the upper bound is December 31 of (current year + 3), not
`now` plus three years. -/
def validateScholarshipData (now : Nat) (s : ParsedScholarship) : Bool :=
  if s.title.length < 10 then false
  else if s.organization.length < 3 then false
  else if s.description.length < 50 then false
  else if !(isValidApplicationLink s.link) then false
  else
    match jsParseDate s.deadline with
    | none => true
    | some t =>
      if t < now then false
      else if dateMs (yearOf now + 3) 12 31 < t then false
      else true

/-- The case-insensitive `findOne` filter of `storeScholarships`: the
stored title (resp. organization) equals the incoming trimmed title
(resp. organization) up to case. -/
def matchesCandidate (s : ParsedScholarship) (r : StoredScholarship) : Bool :=
  lowerStr r.title == lowerStr (jsTrim s.title) &&
  lowerStr r.organization == lowerStr (jsTrim s.organization)

/-- JS `<` on two `Date` values, false when either is invalid (`NaN`). -/
def jsDateLt (a b : Option Nat) : Bool :=
  match a, b with
  | some x, some y => decide (x < y)
  | _, _ => false

/-- The condition under which `storeScholarships` issues `updateOne` on an
existing match: incoming deadline strictly later, or incoming (trimmed)
description strictly longer than the stored one. -/
def shouldUpdate (r : StoredScholarship) (s : ParsedScholarship) : Bool :=
  jsDateLt r.deadline (jsParseDate s.deadline) ||
  decide (r.description.length < (jsTrim s.description).length)

/-- The `$set` document of the in-place update: deadline becomes the later
of the two, description the longer, link the incoming one when it still
passes the trust policy, amount the incoming one when non-blank, and
`updated_at` the current time; every other field is kept. -/
def mergeUpdate (now : Nat) (r : StoredScholarship) (s : ParsedScholarship) :
    StoredScholarship :=
  let nd := jsParseDate s.deadline
  { r with
    deadline := if jsDateLt r.deadline nd then nd else r.deadline
    description :=
      if r.description.length < (jsTrim s.description).length then jsTrim s.description
      else r.description
    link := if isValidApplicationLink s.link then s.link else r.link
    amount := if jsTrim s.amount ≠ "" then jsTrim s.amount else r.amount
    updated_at := now }

/-- The document built by `Scholarship.create` for a fresh insert. -/
def newRecord (now : Nat) (src : String) (s : ParsedScholarship) :
    StoredScholarship :=
  { title := jsTrim s.title
    organization := jsTrim s.organization
    country := jsTrim s.country
    level := s.level
    field := jsTrim s.field
    category := s.category
    deadline := jsParseDate s.deadline
    description := jsTrim s.description
    link := s.link
    amount := if jsTrim s.amount ≠ "" then jsTrim s.amount else "Varies"
    currency := if s.currency ≠ "" then s.currency else "USD"
    is_verified := false
    source := src
    created_at := now
    updated_at := now }

/-- `updateOne` by the id `findOne` returned: rewrite the first record
satisfying the filter. -/
def updateFirst (p : StoredScholarship → Bool)
    (f : StoredScholarship → StoredScholarship) :
    List StoredScholarship → List StoredScholarship
  | [] => []
  | r :: rest => if p r then f r :: rest else r :: updateFirst p f rest

/-- The added/duped/rejected counters of `storeScholarships`. -/
structure StoreCounts where
  added : Nat
  duped : Nat
  rejected : Nat
deriving DecidableEq, Repr

/-- One iteration of the `storeScholarships` loop: validate, look for a
case-insensitive (title, organization) match, update in place when the
incoming record qualifies, otherwise insert.  (The sequential model never
reaches the duplicate-key `catch`: an exact index collision would imply a
case-insensitive match, which was checked first.) -/
def storeOne (now : Nat) (src : String) (st : List StoredScholarship)
    (s : ParsedScholarship) : List StoredScholarship × StoreCounts :=
  if !(validateScholarshipData now s) then (st, ⟨0, 0, 1⟩)
  else
    match st.find? (matchesCandidate s) with
    | some r =>
      if shouldUpdate r s then
        (updateFirst (matchesCandidate s) (fun r0 => mergeUpdate now r0 s) st, ⟨0, 1, 0⟩)
      else (st, ⟨0, 1, 0⟩)
    | none => (st ++ [newRecord now src s], ⟨1, 0, 0⟩)

/-- `storeScholarships`: fold the loop over the incoming batch, returning
the final store and the counters (the source returns `added`). -/
def storeScholarships (now : Nat) (src : String) (st : List StoredScholarship) :
    List ParsedScholarship → List StoredScholarship × StoreCounts
  | [] => (st, ⟨0, 0, 0⟩)
  | s :: rest =>
    let step := storeOne now src st s
    let next := storeScholarships now src step.1 rest
    (next.1, ⟨step.2.added + next.2.added, step.2.duped + next.2.duped,
              step.2.rejected + next.2.rejected⟩)

/-! ### Provider configuration and the fetch cycle
(`AIServiceManager`, `runFetchCycle`) -/

/-- The environment-derived configuration of `AIServiceManager`
(`AI_PROVIDER` defaults to "grok" upstream of this structure). -/
structure AIConfig where
  provider : String
  openaiApiKey : Option String
  grokApiKey : Option String
  geminiApiKey : Option String
deriving DecidableEq, Repr

/-- The error message `initializeProvider` throws when no provider could
be constructed. -/
def initErrorMsg (cfg : AIConfig) : String :=
  let availableKeys :=
    (if cfg.openaiApiKey.isSome then ["openai"] else []) ++
    (if cfg.geminiApiKey.isSome then ["gemini"] else []) ++
    (if cfg.grokApiKey.isSome then ["grok"] else [])
  "[AI Service] Failed to initialize provider: " ++ cfg.provider ++ ". " ++
    (if availableKeys.length > 0 then
      "Available providers: " ++ String.intercalate ", " availableKeys ++
        ". Consider switching to one of them in your .env file."
     else "No API keys found. Please add an API key to your .env file.")

/-- The `switch` of `initializeProvider`: the provider assigned to
`this.currentProvider` (its name here), or `none` when the named
provider's API key is missing or the name is unknown. -/
def selectProvider (cfg : AIConfig) : Option String :=
  if cfg.provider == "openai" then
    (if cfg.openaiApiKey.isSome then some "OpenAI" else none)
  else if cfg.provider == "gemini" then
    (if cfg.geminiApiKey.isSome then some "Gemini" else none)
  else if cfg.provider == "grok" then
    (if cfg.grokApiKey.isSome then some "Grok" else none)
  else none

/-- `AIServiceManager.initializeProvider`: pick the provider named by the
configuration when its API key is present; otherwise throw.  Returns the
provider name on success. -/
def initializeProvider (cfg : AIConfig) : Except String String :=
  match selectProvider cfg with
  | some name => Except.ok name
  | none => Except.error (initErrorMsg cfg)

/-- One fetch-run record (the `FetchLog` document), at its final value. -/
structure FetchLog where
  status : String
  scholarships_found : Nat
  scholarships_added : Nat
  error : Option String
deriving DecidableEq, Repr

/-- The mutable state `runFetchCycle` touches: the scholarship collection
and the fetch-log collection (in creation order). -/
structure SysState where
  store : List StoredScholarship
  logs : List FetchLog
deriving DecidableEq, Repr

/-- The observable outcome of one `runFetchCycle()` call: the final state,
and the error it rejected with, if any. -/
structure CycleResult where
  state : SysState
  thrown : Option String
deriving DecidableEq, Repr

/-- `runFetchCycle` from src/cron/scheduler.ts.  `rawBatches` is, per
query, the parsed JSON array of the provider's raw output (providers turn
transport/parse failures into empty arrays, so every failure mode of the
search stage is a value here).

Order of operations, as in the source: `createFetchLog` persists a
`running` record first; then `getProviderName()` lazily constructs the
`AIServiceManager`, whose constructor runs `initializeProvider` — this
call sits BEFORE the `try` block, so a configuration error propagates to
the caller and leaves the log record in its `running` state.  Inside the
`try`, every stage of the modelled pipeline is total (each stage absorbs
its own errors), so the `catch`/`failFetchLog` branch is not reached and
the log is finalized by `completeFetchLog` with the length of the
verified list and the number added. -/
def runFetchCycle (now : Nat) (cfg : AIConfig) (net : NetOracle)
    (rawBatches : List (List RawItem)) (src : String) (st : SysState) :
    CycleResult :=
  let runningLog : FetchLog :=
    { status := "running", scholarships_found := 0, scholarships_added := 0,
      error := none }
  match initializeProvider cfg with
  | Except.error e =>
    { state := { st with logs := st.logs ++ [runningLog] }, thrown := some e }
  | Except.ok _ =>
    let scholarships := runSearchBatch net (rawBatches.map (geminiProcess now))
    let stored := storeScholarships now src st.store scholarships
    let doneLog : FetchLog :=
      { status := "completed", scholarships_found := scholarships.length,
        scholarships_added := stored.2.added, error := none }
    { state := { store := stored.1, logs := st.logs ++ [doneLog] }, thrown := none }

/-! ### Concrete fixtures used by witnesses and counterexamples -/

def mitUrl : JsUrl := ⟨"https:", "mit.edu", "/apply"⟩

def harvardUrl : JsUrl := ⟨"https:", "harvard.edu", "/scholarship"⟩

def blockedUrl : JsUrl := ⟨"https:", "scholarships.com", "/x"⟩

/-- The reference instant of the concrete scenarios: 2026-01-01 UTC. -/
def now0 : Nat := dateMs 2026 1 1

def descGood : String :=
  "Full tuition plus a living stipend for admitted graduate students."

/-- A raw candidate that passes every validation stage at `now0`. -/
def rawGood : RawItem :=
  ⟨some "MIT Presidential Scholarship", some "MIT", some "USA", some "Master",
   some "Engineering", some "Merit-Based", some "2026-06-01", some descGood,
   some (some mitUrl), some "Full tuition", some "USD"⟩

/-- As `rawGood`, but its deadline lies in the past at `now0`. -/
def rawPast : RawItem :=
  { rawGood with deadline := some "2020-01-01", link := some (some harvardUrl) }

/-- As `rawGood`, but its link points at the blocklisted scholarships.com. -/
def rawBlocked : RawItem := { rawGood with link := some (some blockedUrl) }

/-- As `rawGood`, but with a missing required field (no organization). -/
def rawNoOrg : RawItem := { rawGood with organization := none }

/-- The parsed form of `rawGood`. -/
def goodCandidate : ParsedScholarship :=
  ⟨"MIT Presidential Scholarship", "MIT", "USA", "Master", "Engineering",
   "Merit-Based", "2026-06-01", descGood, some mitUrl, "Full tuition", "USD"⟩

/-- A network in which every request returns HTTP 200. -/
def netAll : NetOracle := ⟨fun _ => .status 200, fun _ => .status 200⟩

/-- A configuration with a usable Gemini key. -/
def cfgOk : AIConfig := ⟨"gemini", none, none, some "key"⟩

/-- The default configuration with no API key at all. -/
def cfgNone : AIConfig := ⟨"grok", none, none, none⟩

def desc60 : String := String.mk (List.replicate 60 'e')

def desc40 : String := String.mk (List.replicate 40 'e')

def desc55 : String := String.mk (List.replicate 55 'e')

/-- A stored record: deadline 2026-01-01, description of length 60. -/
def ex0 : StoredScholarship :=
  ⟨"MIT Presidential Scholarship", "MIT", "USA", "Master", "Engineering",
   "Merit-Based", some (dateMs 2026 1 1), desc60, some mitUrl, "Varies",
   "USD", false, "seed", 0, 0⟩

/-- An incoming candidate matching `ex0`: deadline 2026-02-01, description
of length 40. -/
def s40 : ParsedScholarship :=
  ⟨"MIT Presidential Scholarship", "MIT", "USA", "Master", "Engineering",
   "Merit-Based", "2026-02-01", desc40, some mitUrl, "Varies", "USD"⟩

/-- As `s40`, but with a description of length 55 (long enough to pass the
store-time validation, still shorter than the stored description). -/
def s55 : ParsedScholarship := { s40 with description := desc55 }

/-! ### Helper lemmas -/

/-- Closed form of `isOfficialDirectLink` on a parsed URL. -/
theorem isOfficialDirectLink_eq (u : JsUrl) :
    isOfficialDirectLink (some u) =
      ((u.protocol == "https:" || u.protocol == "http:") &&
       !hostIsBlocked (normalizeHost u.hostname) &&
       !sEndsWith (lowerStr u.pathname) ".pdf") := by
  unfold isOfficialDirectLink
  by_cases h1 : u.protocol = "https:" <;> by_cases h2 : u.protocol = "http:"
  · rw [h1] at h2; exact absurd h2 (by decide)
  · cases hb : hostIsBlocked (normalizeHost u.hostname) <;>
      cases hp : sEndsWith (lowerStr u.pathname) ".pdf" <;> simp [h1, hb, hp]
  · cases hb : hostIsBlocked (normalizeHost u.hostname) <;>
      cases hp : sEndsWith (lowerStr u.pathname) ".pdf" <;> simp [h1, h2, hb, hp]
  · simp [h1, h2]

/-- Closed form of `isValidApplicationLink` on a parsed URL. -/
theorem isValidApplicationLink_eq (u : JsUrl) :
    isValidApplicationLink (some u) =
      ((u.protocol == "https:" || u.protocol == "http:") &&
       !hostIsBlocked (normalizeHost u.hostname) &&
       !sEndsWith (lowerStr u.pathname) ".pdf") := by
  unfold isValidApplicationLink
  by_cases h1 : u.protocol = "https:" <;> by_cases h2 : u.protocol = "http:"
  · rw [h1] at h2; exact absurd h2 (by decide)
  · cases hb : hostIsBlocked (normalizeHost u.hostname) <;>
      cases hp : sEndsWith (lowerStr u.pathname) ".pdf" <;> simp [h1, hb, hp]
  · cases hb : hostIsBlocked (normalizeHost u.hostname) <;>
      cases hp : sEndsWith (lowerStr u.pathname) ".pdf" <;> simp [h1, h2, hb, hp]
  · simp [h1, h2]

/-! ### Claim C5 -/

/-- C5: every URL whose scheme is neither http nor https, or whose
normalized hostname (lowercased, one leading `www.` stripped) equals or is
a subdomain of a blocklisted domain, or whose path ends in `.pdf`
case-insensitively, is rejected by both trust-policy link predicates; the
URL `https://mit.edu/apply` is accepted by both. -/
theorem trust_policy_characterization :
    (∀ u : JsUrl,
      ((u.protocol ≠ "http:" ∧ u.protocol ≠ "https:") ∨
        hostIsBlocked (normalizeHost u.hostname) = true ∨
        sEndsWith (lowerStr u.pathname) ".pdf" = true) →
      isOfficialDirectLink (some u) = false ∧
      isValidApplicationLink (some u) = false) ∧
    isOfficialDirectLink (some mitUrl) = true ∧
    isValidApplicationLink (some mitUrl) = true := by
  refine ⟨?_, by decide, by decide⟩
  intro u h
  rw [isOfficialDirectLink_eq, isValidApplicationLink_eq]
  rcases h with ⟨h1, h2⟩ | h3 | h3
  · simp [h1, h2]
  · simp [h3]
  · simp [h3]

/-- Witness for C5 at `https://www.scholarships.com/x` (blocklisted host
behind a `www.` prefix). -/
theorem trust_policy_characterization_w :
    isOfficialDirectLink (some ⟨"https:", "www.scholarships.com", "/x"⟩) = false ∧
    isValidApplicationLink (some ⟨"https:", "www.scholarships.com", "/x"⟩) = false :=
  trust_policy_characterization.1 ⟨"https:", "www.scholarships.com", "/x"⟩
    (Or.inr (Or.inl (by decide)))

/-! ### Claim C9 -/

/-- C9: the link verifier accepts exactly when the HEAD request returns a
status in [200,400), or the HEAD request returns 403 or 405 and the
follow-up GET returns a status in [200,300); every other outcome
(including a network error or timeout on either request) yields `false`,
and the batch runner promotes exactly the candidates whose link is
reachable, so dropped candidates never appear in its output. -/
theorem link_verifier_characterization :
    (∀ headRes getRes : FetchOutcome,
      verifyLinkReachable headRes getRes = true ↔
        (∃ c, headRes = FetchOutcome.status c ∧ 200 ≤ c ∧ c < 400) ∨
        ((headRes = FetchOutcome.status 403 ∨ headRes = FetchOutcome.status 405) ∧
          ∃ c2, getRes = FetchOutcome.status c2 ∧ 200 ≤ c2 ∧ c2 < 300)) ∧
    (∀ (net : NetOracle) (l : List ParsedScholarship),
      verifyAll net l = l.filter (fun s => linkReachable net s.link)) := by
  constructor
  · intro headRes getRes
    cases headRes with
    | netErr =>
      constructor
      · intro h; simp [verifyLinkReachable] at h
      · rintro (⟨c, hc, _, _⟩ | ⟨hc | hc, _⟩) <;> exact FetchOutcome.noConfusion hc
    | status c =>
      constructor
      · intro h
        simp only [verifyLinkReachable] at h
        split at h
        · next hin => exact Or.inl ⟨c, rfl, by omega⟩
        · next hnin =>
          split at h
          · next h45 =>
            cases getRes with
            | netErr => simp at h
            | status c2 =>
              simp only [decide_eq_true_eq] at h
              refine Or.inr ⟨?_, c2, rfl, h⟩
              rcases h45 with h4 | h4
              · exact Or.inl (by rw [h4])
              · exact Or.inr (by rw [h4])
          · next h45 => simp at h
      · rintro (⟨c', hc', hge, hlt⟩ | ⟨hc, c2, hc2, hge, hlt⟩)
        · cases hc'
          simp only [verifyLinkReachable]
          rw [if_pos (by omega)]
        · cases hc2
          rcases hc with hc | hc <;> cases hc <;> simp only [verifyLinkReachable] <;>
            rw [if_neg (by omega)] <;> simp [hge, hlt]
  · intro net l
    induction l with
    | nil => rfl
    | cons s rest ih =>
      simp only [verifyAll, List.filter_cons]
      cases hr : linkReachable net s.link <;> simp [hr, ih]

/-! ### Claim C8 -/

/-- C8: the provider's validation loop is an element-wise filter: its
output is the input batch filtered by the per-element validator, and an
element rejected by the schema (missing required field, enum violation,
etc.) is excluded exactly by itself — the elements before and after it
are processed as if it were absent, independent of its position. -/
theorem validator_excludes_exactly_failing :
    (∀ (now : Nat) (l : List RawItem),
      geminiProcess now l = l.filterMap (geminiValidateItem now)) ∧
    (∀ (now : Nat) (pre post : List RawItem) (x : RawItem),
      zodParse x = none →
      geminiProcess now (pre ++ x :: post) =
        geminiProcess now pre ++ geminiProcess now post) := by
  have hfm : ∀ (now : Nat) (l : List RawItem),
      geminiProcess now l = l.filterMap (geminiValidateItem now) := by
    intro now l
    induction l with
    | nil => rfl
    | cons item rest ih =>
      simp only [geminiProcess, List.filterMap_cons]
      cases h : geminiValidateItem now item <;> simp [h, ih]
  refine ⟨hfm, ?_⟩
  intro now pre post x hx
  have hnone : geminiValidateItem now x = none := by
    unfold geminiValidateItem; rw [hx]
  rw [hfm, hfm, hfm, List.filterMap_append, List.filterMap_cons, hnone]

/-- Witness for C8: a batch whose middle element lacks the required
organization field loses exactly that element. -/
theorem validator_excludes_exactly_failing_w :
    zodParse rawNoOrg = none ∧
    geminiProcess now0 ([rawGood] ++ rawNoOrg :: [rawPast]) =
      geminiProcess now0 [rawGood] ++ geminiProcess now0 [rawPast] :=
  ⟨by decide,
   validator_excludes_exactly_failing.2 now0 [rawGood] [rawPast] rawNoOrg (by decide)⟩

/-! ### Claim C6 -/

/-- As `rawGood`, with deadline 2029-06-01: more than 3 years after
`now0`, but no later than Dec 31 of 2029. -/
def rawFar : RawItem := { rawGood with deadline := some "2029-06-01" }

def farCandidate : ParsedScholarship :=
  { goodCandidate with deadline := "2029-06-01" }

/-- A candidate whose deadline string matches the Zod regex but is not a
real calendar date, so `new Date` yields `NaN`. -/
def nanCandidate : ParsedScholarship :=
  { goodCandidate with deadline := "2026-99-99" }

/-- As `rawGood`, with deadline exactly one day after `now0`. -/
def rawTomorrow : RawItem := { rawGood with deadline := some "2026-01-02" }

def tomorrowCandidate : ParsedScholarship :=
  { goodCandidate with deadline := "2026-01-02" }

/-- C6 counterexample: the deadline window is NOT applied identically at
extraction time and at store time.  At `now0` (2026-01-01), the deadline
2029-06-01 is dropped by the provider's validation (more than 3 years
after `now`), yet the very same candidate passes the store-time
`validateScholarshipData`, whose upper bound is December 31 of
(current year + 3) = 2029-12-31; moreover an unparseable deadline
(2026-99-99, `NaN`) passes the store-time validation, which therefore
does not exclude unparseable deadlines. -/
theorem deadline_window_cx :
    zodParse rawFar = some farCandidate ∧
    geminiValidateItem now0 rawFar = none ∧
    validateScholarshipData now0 farCandidate = true ∧
    jsParseDate nanCandidate.deadline = none ∧
    validateScholarshipData now0 nanCandidate = true := by decide

/-- C6 amended: at extraction time a schema-valid, trusted-link candidate
is kept exactly when its deadline parses to a time in
[`now`, `now` + 3 calendar years]; at store time a candidate passing the
non-deadline checks is kept exactly when its deadline is unparseable (not
excluded!) or parses into [`now`, Dec 31 of (current year + 3)]; a
deadline of exactly one day after `now0` is included at both stages. -/
theorem deadline_window_amended :
    (∀ (now : Nat) (item : RawItem) (s : ParsedScholarship),
      zodParse item = some s →
      isOfficialDirectLink s.link = true →
      (geminiValidateItem now item = some s ↔
        ∃ t, jsParseDate s.deadline = some t ∧ now ≤ t ∧ t ≤ addYears 3 now)) ∧
    (∀ (now : Nat) (s : ParsedScholarship),
      10 ≤ s.title.length →
      3 ≤ s.organization.length →
      50 ≤ s.description.length →
      isValidApplicationLink s.link = true →
      (validateScholarshipData now s = true ↔
        (jsParseDate s.deadline = none ∨
         ∃ t, jsParseDate s.deadline = some t ∧ now ≤ t ∧
           t ≤ dateMs (yearOf now + 3) 12 31))) ∧
    geminiValidateItem now0 rawTomorrow = some tomorrowCandidate ∧
    validateScholarshipData now0 tomorrowCandidate = true := by
  refine ⟨?_, ?_, by decide, by decide⟩
  · intro now item s hz hl
    unfold geminiValidateItem
    rw [hz]
    dsimp only
    rw [hl]
    simp only [Bool.not_true, Bool.false_eq_true, if_false]
    cases ht : jsParseDate s.deadline with
    | none =>
      dsimp only
      constructor
      · intro h; cases h
      · rintro ⟨t, ht', _, _⟩; cases ht'
    | some t =>
      dsimp only
      by_cases h1 : t < now
      · rw [if_pos h1]
        constructor
        · intro h; cases h
        · rintro ⟨t', ht', hge, _⟩
          cases ht'; omega
      · rw [if_neg h1]
        by_cases h2 : addYears 3 now < t
        · rw [if_pos h2]
          constructor
          · intro h; cases h
          · rintro ⟨t', ht', _, hle⟩
            cases ht'; omega
        · rw [if_neg h2]
          exact ⟨fun _ => ⟨t, rfl, by omega, by omega⟩, fun _ => rfl⟩
  · intro now s ht ho hd hl
    unfold validateScholarshipData
    rw [if_neg (by omega), if_neg (by omega), if_neg (by omega), hl]
    simp only [Bool.not_true, Bool.false_eq_true, if_false]
    cases hp : jsParseDate s.deadline with
    | none => simp
    | some t =>
      dsimp only
      by_cases h1 : t < now
      · rw [if_pos h1]
        constructor
        · intro h; cases h
        · rintro (h | ⟨t', ht', hge, _⟩)
          · cases h
          · cases ht'; omega
      · rw [if_neg h1]
        by_cases h2 : dateMs (yearOf now + 3) 12 31 < t
        · rw [if_pos h2]
          constructor
          · intro h; cases h
          · rintro (h | ⟨t', ht', _, hle⟩)
            · cases h
            · cases ht'; omega
        · rw [if_neg h2]
          exact ⟨fun _ => Or.inr ⟨t, rfl, by omega, by omega⟩, fun _ => rfl⟩

/-- Witness for C6 (amended) at the concrete good candidate. -/
theorem deadline_window_amended_w :
    geminiValidateItem now0 rawGood = some goodCandidate ∧
    validateScholarshipData now0 goodCandidate = true := by
  constructor
  · exact (deadline_window_amended.1 now0 rawGood goodCandidate (by decide)
      (by decide)).mpr ⟨dateMs 2026 6 1, by decide, by decide, by decide⟩
  · exact (deadline_window_amended.2.1 now0 goodCandidate (by decide) (by decide)
      (by decide) (by decide)).mpr
      (Or.inr ⟨dateMs 2026 6 1, by decide, by decide, by decide⟩)

/-! ### Helper lemmas on the store loop -/

/-- A candidate failing the store-time validation is rejected and leaves
the store untouched. -/
theorem storeOne_rejected (now : Nat) (src : String) (st : List StoredScholarship)
    (s : ParsedScholarship) (hv : validateScholarshipData now s = false) :
    storeOne now src st s = (st, ⟨0, 0, 1⟩) := by
  unfold storeOne
  rw [hv]
  rfl

/-- A valid candidate with a case-insensitive match and a qualifying
update rewrites the matched record in place. -/
theorem storeOne_match_update (now : Nat) (src : String)
    (st : List StoredScholarship) (s : ParsedScholarship) (r : StoredScholarship)
    (hv : validateScholarshipData now s = true)
    (hm : st.find? (matchesCandidate s) = some r)
    (hu : shouldUpdate r s = true) :
    storeOne now src st s =
      (updateFirst (matchesCandidate s) (fun r0 => mergeUpdate now r0 s) st,
       ⟨0, 1, 0⟩) := by
  unfold storeOne
  rw [hv, hm]
  dsimp only [Bool.not_true]
  rw [if_neg (by simp), hu]
  rfl

/-- A valid candidate with a case-insensitive match but no qualifying
update is counted as a duplicate and changes nothing. -/
theorem storeOne_match_noupdate (now : Nat) (src : String)
    (st : List StoredScholarship) (s : ParsedScholarship) (r : StoredScholarship)
    (hv : validateScholarshipData now s = true)
    (hm : st.find? (matchesCandidate s) = some r)
    (hu : shouldUpdate r s = false) :
    storeOne now src st s = (st, ⟨0, 1, 0⟩) := by
  unfold storeOne
  rw [hv, hm]
  dsimp only [Bool.not_true]
  rw [if_neg (by simp), hu]
  rfl

/-- A valid candidate with no case-insensitive match is inserted. -/
theorem storeOne_insert (now : Nat) (src : String) (st : List StoredScholarship)
    (s : ParsedScholarship)
    (hv : validateScholarshipData now s = true)
    (hm : st.find? (matchesCandidate s) = none) :
    storeOne now src st s = (st ++ [newRecord now src s], ⟨1, 0, 0⟩) := by
  unfold storeOne
  rw [hv, hm]
  dsimp only [Bool.not_true]
  rw [if_neg (by simp)]

/-- `find?` skips a prefix in which nothing matches. -/
theorem find?_append_of_none {α : Type} {p : α → Bool} {l1 l2 : List α}
    (h : l1.find? p = none) : (l1 ++ l2).find? p = l2.find? p := by
  induction l1 with
  | nil => rfl
  | cons a l ih =>
    cases hpa : p a with
    | true => rw [List.find?_cons_of_pos _ hpa] at h; cases h
    | false =>
      rw [List.find?_cons_of_neg _ (by simp [hpa])] at h
      rw [List.cons_append, List.find?_cons_of_neg _ (by simp [hpa])]
      exact ih h

/-- The record freshly inserted for a candidate matches that candidate's
case-insensitive duplicate filter. -/
theorem matches_newRecord (now : Nat) (src : String) (s : ParsedScholarship) :
    matchesCandidate s (newRecord now src s) = true := by
  unfold matchesCandidate newRecord
  simp

/-- An incoming candidate never qualifies to update its own freshly
inserted record: equal deadlines and equal description lengths. -/
theorem shouldUpdate_newRecord (now : Nat) (src : String) (s : ParsedScholarship) :
    shouldUpdate (newRecord now src s) s = false := by
  unfold shouldUpdate newRecord
  dsimp only
  rw [Bool.or_eq_false_iff]
  constructor
  · cases h : jsParseDate s.deadline <;> simp [jsDateLt]
  · simp

/-! ### Claim C10 -/

/-- C10: the stored deadline never moves backwards through the merge
step: whenever the in-place update fires — even when it was triggered
only by a longer incoming description — the resulting stored deadline is
the maximum of the stored and incoming deadlines, and when no update
fires the store (hence the stored deadline) is unchanged. -/
theorem merge_deadline_monotone (now : Nat) (src : String)
    (st : List StoredScholarship) (s : ParsedScholarship)
    (r : StoredScholarship) (od nd : Nat)
    (hod : r.deadline = some od) (hnd : jsParseDate s.deadline = some nd)
    (hv : validateScholarshipData now s = true)
    (hm : st.find? (matchesCandidate s) = some r) :
    (mergeUpdate now r s).deadline = some (Nat.max od nd) ∧
    (shouldUpdate r s = true →
      (storeOne now src st s).1 =
        updateFirst (matchesCandidate s) (fun r0 => mergeUpdate now r0 s) st) ∧
    (shouldUpdate r s = false → (storeOne now src st s).1 = st) := by
  refine ⟨?_, ?_, ?_⟩
  · show (if jsDateLt r.deadline (jsParseDate s.deadline) then jsParseDate s.deadline
          else r.deadline) = some (Nat.max od nd)
    rw [hod, hnd]
    unfold jsDateLt
    by_cases h : od < nd
    · rw [if_pos (by simpa using h)]
      congr 1
      unfold Nat.max
      omega
    · rw [if_neg (by simpa using h)]
      congr 1
      unfold Nat.max
      omega
  · intro hu
    rw [storeOne_match_update now src st s r hv hm hu]
  · intro hu
    rw [storeOne_match_noupdate now src st s r hv hm hu]

/-- Witness for C10: the deadline moves from 2026-01-01 to 2026-02-01 on
the concrete merge. -/
theorem merge_deadline_monotone_w :
    (mergeUpdate now0 ex0 s55).deadline =
      some (Nat.max (dateMs 2026 1 1) (dateMs 2026 2 1)) :=
  (merge_deadline_monotone now0 "seed" [ex0] s55 ex0 (dateMs 2026 1 1)
    (dateMs 2026 2 1) rfl (by decide) (by decide) (by decide)).1

/-! ### Claim C4 -/

/-- C4 counterexample: for the stored record `ex0` (deadline 2026-01-01,
description length 60) and the incoming candidate `s40` (deadline
2026-02-01, description length 40), the candidate's identity key matches
and its deadline is strictly later, yet the stored deadline is NOT
updated: `storeScholarships` re-validates every candidate before the
duplicate check, and a 40-character description fails the 50-character
floor, so the candidate is rejected and the store left byte-for-byte
unchanged (counted as rejected, not duplicate). -/
theorem merge_short_description_cx :
    matchesCandidate s40 ex0 = true ∧
    jsDateLt ex0.deadline (jsParseDate s40.deadline) = true ∧
    validateScholarshipData now0 s40 = false ∧
    storeScholarships now0 "seed" [ex0] [s40] = ([ex0], ⟨0, 0, 1⟩) := by decide

/-- C4 amended: for every incoming candidate that passes the store-time
validation and whose identity key matches a stored record, the merge
issues an in-place update exactly when the incoming deadline is strictly
later or the incoming (trimmed) description is strictly longer; the
update rewrites deadline (to the later one), description (to the longer
one), link (to the incoming one only when it still passes the trust
policy), amount (to the incoming trimmed one when non-blank) and the
`updated_at` timestamp, leaving every other stored field unchanged; in
both branches the candidate is counted as a duplicate, and with no
qualifying update the store is unchanged. -/
theorem merge_policy_amended (now : Nat) (src : String)
    (st : List StoredScholarship) (s : ParsedScholarship) (r : StoredScholarship)
    (hv : validateScholarshipData now s = true)
    (hm : st.find? (matchesCandidate s) = some r) :
    (shouldUpdate r s = true ↔
      (jsDateLt r.deadline (jsParseDate s.deadline) = true ∨
       r.description.length < (jsTrim s.description).length)) ∧
    (storeOne now src st s).2 = ⟨0, 1, 0⟩ ∧
    (shouldUpdate r s = false → (storeOne now src st s).1 = st) ∧
    (shouldUpdate r s = true →
      (storeOne now src st s).1 =
        updateFirst (matchesCandidate s) (fun r0 => mergeUpdate now r0 s) st) ∧
    (mergeUpdate now r s).deadline =
      (if jsDateLt r.deadline (jsParseDate s.deadline) then jsParseDate s.deadline
       else r.deadline) ∧
    (mergeUpdate now r s).description =
      (if r.description.length < (jsTrim s.description).length then jsTrim s.description
       else r.description) ∧
    (mergeUpdate now r s).link =
      (if isValidApplicationLink s.link then s.link else r.link) ∧
    (mergeUpdate now r s).amount =
      (if jsTrim s.amount ≠ "" then jsTrim s.amount else r.amount) ∧
    (mergeUpdate now r s).updated_at = now ∧
    (mergeUpdate now r s).title = r.title ∧
    (mergeUpdate now r s).organization = r.organization ∧
    (mergeUpdate now r s).country = r.country ∧
    (mergeUpdate now r s).level = r.level ∧
    (mergeUpdate now r s).field = r.field ∧
    (mergeUpdate now r s).category = r.category ∧
    (mergeUpdate now r s).currency = r.currency ∧
    (mergeUpdate now r s).is_verified = r.is_verified ∧
    (mergeUpdate now r s).source = r.source ∧
    (mergeUpdate now r s).created_at = r.created_at := by
  refine ⟨?_, ?_, ?_, ?_, rfl, rfl, rfl, rfl, rfl, rfl, rfl, rfl, rfl, rfl,
    rfl, rfl, rfl, rfl, rfl⟩
  · unfold shouldUpdate
    simp
  · cases hu : shouldUpdate r s with
    | true => rw [storeOne_match_update now src st s r hv hm hu]
    | false => rw [storeOne_match_noupdate now src st s r hv hm hu]
  · intro hu
    rw [storeOne_match_noupdate now src st s r hv hm hu]
  · intro hu
    rw [storeOne_match_update now src st s r hv hm hu]

/-- Witness for C4 (amended) on the corrected concrete instance: incoming
deadline 2026-02-01 with description length 55 (≥ 50, still shorter than
the stored 60): the update fires, the deadline is updated and the
description is not, and `updated_at` moves to `now0`. -/
theorem merge_policy_amended_w :
    shouldUpdate ex0 s55 = true ∧
    (storeOne now0 "seed" [ex0] s55).1 =
      updateFirst (matchesCandidate s55) (fun r0 => mergeUpdate now0 r0 s55) [ex0] ∧
    (mergeUpdate now0 ex0 s55).deadline = some (dateMs 2026 2 1) ∧
    (mergeUpdate now0 ex0 s55).description = ex0.description ∧
    (mergeUpdate now0 ex0 s55).updated_at = now0 := by
  have h := merge_policy_amended now0 "seed" [ex0] s55 ex0 (by decide) (by decide)
  refine ⟨h.1.mpr (Or.inl (by decide)), h.2.2.2.1 (h.1.mpr (Or.inl (by decide))),
    h.2.2.2.2.1.trans (by decide), h.2.2.2.2.2.1.trans (by decide),
    h.2.2.2.2.2.2.2.2.1⟩

/-! ### Claim C7 -/

/-- C7: the merge is idempotent on insertion: a valid candidate with no
existing identity match is inserted on the first submission (added = 1),
and the identical second submission finds the freshly inserted record,
qualifies for no update, is counted as a duplicate, and leaves the store
unchanged — so the record count grows by exactly 1 overall. -/
theorem dedup_idempotent (now : Nat) (src : String) (st : List StoredScholarship)
    (s : ParsedScholarship)
    (hv : validateScholarshipData now s = true)
    (hm : st.find? (matchesCandidate s) = none) :
    storeScholarships now src st [s] = (st ++ [newRecord now src s], ⟨1, 0, 0⟩) ∧
    storeScholarships now src (st ++ [newRecord now src s]) [s] =
      (st ++ [newRecord now src s], ⟨0, 1, 0⟩) ∧
    (st ++ [newRecord now src s]).length = st.length + 1 := by
  have hfind2 : (st ++ [newRecord now src s]).find? (matchesCandidate s) =
      some (newRecord now src s) := by
    rw [find?_append_of_none hm,
      List.find?_cons_of_pos _ (matches_newRecord now src s)]
  refine ⟨?_, ?_, by simp⟩
  · simp only [storeScholarships]
    rw [storeOne_insert now src st s hv hm]
  · simp only [storeScholarships]
    rw [storeOne_match_noupdate now src (st ++ [newRecord now src s]) s
      (newRecord now src s) hv hfind2 (shouldUpdate_newRecord now src s)]

/-- Witness for C7 on the concrete good candidate against the empty
store. -/
theorem dedup_idempotent_w :
    storeScholarships now0 "w" [] [goodCandidate] =
      ([] ++ [newRecord now0 "w" goodCandidate], ⟨1, 0, 0⟩) ∧
    storeScholarships now0 "w" ([] ++ [newRecord now0 "w" goodCandidate])
        [goodCandidate] =
      ([] ++ [newRecord now0 "w" goodCandidate], ⟨0, 1, 0⟩) ∧
    ([] ++ [newRecord now0 "w" goodCandidate]).length =
      List.length ([] : List StoredScholarship) + 1 :=
  dedup_idempotent now0 "w" [] goodCandidate (by decide) rfl

/-! ### Claim C3 -/

/-- As `ex0`, with a different deadline (2027-05-01). -/
def exDup : StoredScholarship := { ex0 with deadline := some (dateMs 2027 5 1) }

/-- C3 counterexample: the storage-layer uniqueness constraint is NOT on
exactly (title, organization): the declared unique index is on
(title, organization, deadline), so it admits a corpus holding two
distinct records with identical (lowercased) title and organization that
differ only in deadline. -/
theorem storage_unique_index_cx :
    identityKey ex0 = identityKey exDup ∧
    ex0 ≠ exDup ∧
    indexAdmits [ex0, exDup] := by
  refine ⟨by decide, by decide, ?_⟩
  unfold indexAdmits
  simp only [List.pairwise_cons, List.mem_singleton, List.Pairwise.nil,
    and_true, List.not_mem_nil, false_implies, implies_true]
  intro b hb
  rw [hb]
  decide

/-- The in-place update never touches a record's identity key. -/
theorem identityKey_mergeUpdate (now : Nat) (r : StoredScholarship)
    (s : ParsedScholarship) : identityKey (mergeUpdate now r s) = identityKey r :=
  rfl

/-- `updateFirst` with a key-preserving rewrite leaves the multiset of
identity keys unchanged. -/
theorem updateFirst_map_identityKey (p : StoredScholarship → Bool)
    (f : StoredScholarship → StoredScholarship)
    (hf : ∀ r, identityKey (f r) = identityKey r) :
    ∀ st : List StoredScholarship,
      (updateFirst p f st).map identityKey = st.map identityKey := by
  intro st
  induction st with
  | nil => rfl
  | cons a l ih =>
    unfold updateFirst
    cases hpa : p a
    · simp [ih]
    · simp [hf a]

/-- Pairwise-distinct identity keys, phrased through the key list. -/
theorem identityUnique_iff_nodup (st : List StoredScholarship) :
    identityUnique st ↔ (st.map identityKey).Nodup := by
  unfold identityUnique
  rw [List.Nodup, List.pairwise_map]

/-- A record that fails the case-insensitive duplicate filter for a
candidate has a different identity key from the record the candidate
would be inserted as. -/
theorem identityKey_ne_of_not_matches (now : Nat) (src : String)
    {s : ParsedScholarship} {r : StoredScholarship}
    (h : ¬ matchesCandidate s r = true) :
    identityKey r ≠ identityKey (newRecord now src s) := by
  intro he
  apply h
  unfold identityKey newRecord at he
  unfold matchesCandidate
  rw [Bool.and_eq_true, beq_iff_eq, beq_iff_eq]
  exact ⟨congrArg Prod.fst he, congrArg Prod.snd he⟩

/-- One iteration of the store loop preserves identity-key uniqueness. -/
theorem storeOne_identityUnique (now : Nat) (src : String)
    (st : List StoredScholarship) (s : ParsedScholarship)
    (h : identityUnique st) : identityUnique (storeOne now src st s).1 := by
  cases hv : validateScholarshipData now s with
  | false => rw [storeOne_rejected now src st s hv]; exact h
  | true =>
    cases hfind : st.find? (matchesCandidate s) with
    | some r =>
      cases hu : shouldUpdate r s with
      | false => rw [storeOne_match_noupdate now src st s r hv hfind hu]; exact h
      | true =>
        rw [storeOne_match_update now src st s r hv hfind hu]
        rw [identityUnique_iff_nodup] at h ⊢
        dsimp only
        rwa [updateFirst_map_identityKey (matchesCandidate s)
          (fun r0 => mergeUpdate now r0 s)
          (fun r0 => identityKey_mergeUpdate now r0 s) st]
    | none =>
      rw [storeOne_insert now src st s hv hfind]
      unfold identityUnique at h ⊢
      rw [List.pairwise_append]
      refine ⟨h, List.pairwise_cons.mpr ⟨by simp, List.Pairwise.nil⟩, ?_⟩
      intro a ha b hb
      rw [List.mem_singleton.mp hb]
      exact identityKey_ne_of_not_matches now src
        ((List.find?_eq_none.mp hfind) a ha)

/-- C3 amended: uniqueness of the (lowercased title, organization)
identity key over the corpus is an invariant of the merge step — the
duplicate check guards every insert and updates never change a key — but
the storage-layer safety net is the unique index on exactly
(title, organization, deadline), not on (title, organization). -/
theorem corpus_identity_unique (now : Nat) (src : String)
    (st : List StoredScholarship) (l : List ParsedScholarship)
    (h : identityUnique st) :
    identityUnique (storeScholarships now src st l).1 ∧
    ∀ r : StoredScholarship,
      uniqueIndexKey r = (r.title, r.organization, r.deadline) := by
  refine ⟨?_, fun r => rfl⟩
  induction l generalizing st with
  | nil => exact h
  | cons s rest ih =>
    simp only [storeScholarships]
    exact ih _ (storeOne_identityUnique now src st s h)

/-- Witness for C3 (amended): storing the same candidate twice into the
empty corpus leaves the identity keys pairwise distinct. -/
theorem corpus_identity_unique_w :
    identityUnique (storeScholarships now0 "w2" []
      [goodCandidate, goodCandidate]).1 :=
  (corpus_identity_unique now0 "w2" [] [goodCandidate, goodCandidate]
    List.Pairwise.nil).1

/-! ### Claim C1 -/

/-- C1 counterexample: in the exact end-to-end scenario — a provider
whose raw output parses to 3 candidates, one dropped for a past deadline,
one dropped for a blocklisted link, one valid with a reachable link — the
cycle completes, but the run record's `scholarships_found` is 1, not 3:
the scheduler records the length of the list returned by the search
batch, which the two dropped candidates never reach (they are discarded
inside the provider's `searchScholarships`). -/
theorem fetch_cycle_found_cx :
    geminiValidateItem now0 rawPast = none ∧
    geminiValidateItem now0 rawBlocked = none ∧
    geminiValidateItem now0 rawGood = some goodCandidate ∧
    linkReachable netAll goodCandidate.link = true ∧
    (runFetchCycle now0 cfgOk netAll [[rawPast, rawBlocked, rawGood]]
      "gemini-web-search-batch-1" ⟨[], []⟩).state.logs =
      [⟨"completed", 1, 1, none⟩] ∧
    (runFetchCycle now0 cfgOk netAll [[rawPast, rawBlocked, rawGood]]
      "gemini-web-search-batch-1" ⟨[], []⟩).state.logs ≠
      [⟨"completed", 3, 1, none⟩] := by decide

/-- C1 amended: in the same scenario the cycle completes with
`scholarships_found` = 1 (the verified-survivor count) and
`scholarships_added` = 1, the run record status is `completed`, and the
one surviving candidate is inserted. -/
theorem fetch_cycle_amended (now : Nat) (cfg : AIConfig) (net : NetOracle)
    (a b c : RawItem) (s : ParsedScholarship) (src p : String) (st : SysState)
    (hp : initializeProvider cfg = Except.ok p)
    (ha : geminiValidateItem now a = none)
    (hb : geminiValidateItem now b = none)
    (hc : geminiValidateItem now c = some s)
    (hr : linkReachable net s.link = true)
    (hv : validateScholarshipData now s = true)
    (hm : st.store.find? (matchesCandidate s) = none) :
    runFetchCycle now cfg net [[a, b, c]] src st =
      ⟨⟨st.store ++ [newRecord now src s],
        st.logs ++ [⟨"completed", 1, 1, none⟩]⟩, none⟩ := by
  unfold runFetchCycle
  rw [hp]
  dsimp only
  have h1 : List.map (geminiProcess now) [[a, b, c]] = [[s]] := by
    simp only [List.map_cons, List.map_nil]
    rw [show geminiProcess now [a, b, c] = [s] by
      simp only [geminiProcess, ha, hb, hc]]
  rw [h1]
  have h2 : runSearchBatch net [[s]] = [s] := by
    unfold runSearchBatch
    rw [show ([[s]] : List (List ParsedScholarship)).flatten = [s] by simp]
    unfold verifyAll
    rw [if_pos hr]
    rfl
  rw [h2]
  have h3 : storeScholarships now src st.store [s] =
      (st.store ++ [newRecord now src s], ⟨1, 0, 0⟩) := by
    simp only [storeScholarships]
    rw [storeOne_insert now src st.store s hv hm]
  rw [h3]
  rfl

/-- Witness for C1 (amended) on the concrete three-candidate scenario. -/
theorem fetch_cycle_amended_w :
    runFetchCycle now0 cfgOk netAll [[rawPast, rawBlocked, rawGood]] "g1"
        ⟨[], []⟩ =
      ⟨⟨[] ++ [newRecord now0 "g1" goodCandidate],
        [] ++ [⟨"completed", 1, 1, none⟩]⟩, none⟩ :=
  fetch_cycle_amended now0 cfgOk netAll rawPast rawBlocked rawGood goodCandidate
    "g1" "Gemini" ⟨[], []⟩ rfl (by decide) (by decide) (by decide)
    (by decide) (by decide) rfl

/-! ### Claim C2 -/

/-- The constructor's initialization error message is never empty. -/
theorem initErrorMsg_ne_empty (cfg : AIConfig) : initErrorMsg cfg ≠ "" := by
  intro hcontra
  have hlen := congrArg String.length hcontra
  unfold initErrorMsg at hlen
  rw [String.length_append, String.length_append, String.length_append] at hlen
  have hpos : 0 < ("[AI Service] Failed to initialize provider: ").length := by
    decide
  have h0 : ("" : String).length = 0 := rfl
  rw [h0] at hlen
  omega

/-- C2 counterexample: with no API key for the selected provider, the
configuration error is thrown by `getProviderName()` BEFORE the `try`
block of `runFetchCycle`, so the error propagates to the caller and the
run record is left in status `running` — not `failed` — with no error
message recorded. -/
theorem no_provider_cx :
    initializeProvider cfgNone = Except.error (initErrorMsg cfgNone) ∧
    initErrorMsg cfgNone ≠ "" ∧
    runFetchCycle now0 cfgNone netAll [[rawGood]] "g" ⟨[], []⟩ =
      ⟨⟨[], [⟨"running", 0, 0, none⟩]⟩, some (initErrorMsg cfgNone)⟩ := by
  refine ⟨rfl, initErrorMsg_ne_empty cfgNone, rfl⟩

/-- C2 amended: whenever provider initialization fails, `runFetchCycle`
rejects with the (non-empty) initialization error — the error reaches its
caller uncaught — and the `FetchRun` record it leaves behind stays in
status `running` with `error = none`; `failFetchLog` never runs. -/
theorem no_provider_amended (now : Nat) (cfg : AIConfig) (net : NetOracle)
    (raw : List (List RawItem)) (src e : String) (st : SysState)
    (h : initializeProvider cfg = Except.error e) :
    runFetchCycle now cfg net raw src st =
      ⟨⟨st.store, st.logs ++ [⟨"running", 0, 0, none⟩]⟩, some e⟩ ∧
    e ≠ "" := by
  constructor
  · unfold runFetchCycle
    rw [h]
  · have he : e = initErrorMsg cfg := by
      unfold initializeProvider at h
      cases hcur : selectProvider cfg with
      | some name =>
        rw [hcur] at h
        exact Except.noConfusion h
      | none =>
        rw [hcur] at h
        injection h with he'
        exact he'.symm
    rw [he]
    exact initErrorMsg_ne_empty cfg

/-- Witness for C2 (amended) at the keyless default configuration. -/
theorem no_provider_amended_w :
    runFetchCycle now0 cfgNone netAll [[rawGood]] "g2" ⟨[], []⟩ =
      ⟨⟨[], [] ++ [⟨"running", 0, 0, none⟩]⟩, some (initErrorMsg cfgNone)⟩ ∧
    initErrorMsg cfgNone ≠ "" :=
  no_provider_amended now0 cfgNone netAll [[rawGood]] "g2"
    (initErrorMsg cfgNone) ⟨[], []⟩ rfl

end ScholarBridge
